import Mathlib

/-!
Verification development for the `langchain_google_alloydb_pg` vector-store
adapter (modules `async_vectorstore.py` and `engine.py`).

The Python code is shallowly embedded: Python values appearing in filter
expressions, rows and metadata become the inductive `FilterVal`; Python
dicts become association lists in insertion order; fallible Python code
(code that may raise) becomes `Except String _`; numeric values become `ℚ`
(the floating-point computations used in the theorems are exact over the
inputs evaluated there); database effects become explicit state passing.
Recursive functions over `FilterVal` are defined with a `sizeOf`-based fuel
so that they are structurally recursive and evaluate by kernel reduction;
the fuel is always sufficient (see `cfcF_irrel`).
-/

/-- Python `str.startswith("$")` (used with the single-character prefix
`"$"` throughout the filter compiler), as a list-of-characters test so that
it evaluates by kernel reduction. -/
def startsWithDollar (s : String) : Bool :=
  match s.toList with
  | c :: _ => c = '$'
  | [] => false

/-- ASCII lower-casing of one character. -/
def charToLower (c : Char) : Char := if c.isUpper then Char.ofNat (c.toNat + 32) else c

/-- ASCII upper-casing of one character. -/
def charToUpper (c : Char) : Char := if c.isLower then Char.ofNat (c.toNat - 32) else c

/-- Python `str.lower` (ASCII). -/
def strToLower (s : String) : String := String.mk (s.toList.map charToLower)

/-- Python `str.upper` (ASCII). -/
def strToUpper (s : String) : String := String.mk (s.toList.map charToUpper)

/-- Python `s[1:]`. -/
def strTail (s : String) : String := String.mk (s.toList.drop 1)

deriving instance DecidableEq for Except

/-- Python value as it appears in filter expressions, metadata dictionaries
and database rows: strings, ints, booleans, `None`, lists and dicts
(dicts modelled as association lists in insertion order).  Python floats
with integral values are represented by `vInt` at the model level only
where the claims need no fractional values. -/
inductive FilterVal where
  | vStr : String → FilterVal
  | vInt : Int → FilterVal
  | vBool : Bool → FilterVal
  | vNone : FilterVal
  | vList : List FilterVal → FilterVal
  | vDict : List (String × FilterVal) → FilterVal

mutual

/-- Structural size of a `FilterVal`, used as recursion fuel for the
functions that mirror Python recursion over nested filter values. -/
def fvSize : FilterVal → Nat
  | FilterVal.vStr _ => 1
  | FilterVal.vInt _ => 1
  | FilterVal.vBool _ => 1
  | FilterVal.vNone => 1
  | FilterVal.vList l => fvSizeList l + 1
  | FilterVal.vDict d => fvSizePairs d + 1

/-- Structural size of a list of `FilterVal`. -/
def fvSizeList : List FilterVal → Nat
  | [] => 0
  | v :: vs => fvSize v + fvSizeList vs + 1

/-- Structural size of an association list of `FilterVal`. -/
def fvSizePairs : List (String × FilterVal) → Nat
  | [] => 0
  | (_, v) :: ps => fvSize v + fvSizePairs ps + 1

end

/-- Python `repr` of a value, with fuel for the nested containers (the fuel `fvSize` strictly dominates the nesting depth).  String
repr assumes no embedded quotes (true of every value the claims use). -/
def pyReprF : Nat → FilterVal → String
  | 0, _ => ""
  | _ + 1, FilterVal.vStr s => "'" ++ s ++ "'"
  | _ + 1, FilterVal.vInt n => toString n
  | _ + 1, FilterVal.vBool b => if b then "True" else "False"
  | _ + 1, FilterVal.vNone => "None"
  | f + 1, FilterVal.vList l =>
      "[" ++ String.intercalate ", " (l.map (pyReprF f)) ++ "]"
  | f + 1, FilterVal.vDict d =>
      "\x7b" ++
        String.intercalate ", "
          (d.map (fun kv => "'" ++ kv.1 ++ "': " ++ pyReprF f kv.2)) ++ "\x7d"

/-- Python `repr` of a value (fuel instantiated, never exhausted). -/
def pyRepr (v : FilterVal) : String := pyReprF (fvSize v) v

/-- Python `str` of a value: like `repr` except that a string is rendered
without quotes.  This is what an f-string interpolation produces. -/
def pyStr (v : FilterVal) : String :=
  match v with
  | FilterVal.vStr s => s
  | v => pyRepr v

/-- Python `str(tuple(...))`: elements rendered with `repr`, a trailing
comma for a one-element tuple. -/
def pyTupleStr (l : List FilterVal) : String :=
  match l with
  | [] => "()"
  | [x] => "(" ++ pyRepr x ++ ",)"
  | xs => "(" ++ String.intercalate ", " (xs.map pyRepr) ++ ")"

/-- Python `str.isidentifier`, restricted to ASCII (every field name in the
claims is ASCII): nonempty, first character a letter or underscore, rest
letters, digits or underscores. -/
def pyIsIdentifier (s : String) : Bool :=
  match s.toList with
  | [] => false
  | c :: cs => (c.isAlpha || c = '_') && cs.all (fun d => d.isAlphanum || d = '_')

/-- Python `isinstance(val, (str, int, float))`.  A Python `bool` is a
subtype of `int`, so a boolean passes this check. -/
def pyIsInstStrIntFloat : FilterVal → Bool
  | FilterVal.vStr _ => true
  | FilterVal.vInt _ => true
  | FilterVal.vBool _ => true
  | _ => false

/-- Python `isinstance(val, bool)`. -/
def pyIsInstBool : FilterVal → Bool
  | FilterVal.vBool _ => true
  | _ => false

/-- Module-level operator table `COMPARISONS_TO_NATIVE` of
`async_vectorstore.py`. -/
def COMPARISONS_TO_NATIVE : List (String × String) :=
  [("$eq", "="), ("$ne", "!="), ("$lt", "<"), ("$lte", "<="),
   ("$gt", ">"), ("$gte", ">=")]

/-- Module-level set `SPECIAL_CASED_OPERATORS`. -/
def SPECIAL_CASED_OPERATORS : List String := ["$in", "$nin", "$between", "$exists"]

/-- Module-level set `TEXT_OPERATORS`. -/
def TEXT_OPERATORS : List String := ["$like", "$ilike"]

/-- Module-level set `LOGICAL_OPERATORS`. -/
def LOGICAL_OPERATORS : List String := ["$and", "$or", "$not"]

/-- Module-level set `SUPPORTED_OPERATORS`: union of the four tables. -/
def SUPPORTED_OPERATORS : List String :=
  COMPARISONS_TO_NATIVE.map Prod.fst ++ TEXT_OPERATORS ++
    LOGICAL_OPERATORS ++ SPECIAL_CASED_OPERATORS

/-- Element check loop of `_handle_field_filter` for `$in` / `$nin`
values: raises `NotImplementedError` on the first element that is not a
str/int/float, and on the first boolean (booleans pass the first check
because `bool` is a subtype of `int`, and are rejected by the dedicated
second check). -/
def checkInNinList : List FilterVal → Except String Unit
  | [] => Except.ok ()
  | v :: vs =>
      if ¬ pyIsInstStrIntFloat v then
        Except.error "NotImplementedError: Unsupported type for value in $in or $nin"
      else if pyIsInstBool v then
        Except.error "NotImplementedError: Unsupported type bool for value in $in or $nin"
      else checkInNinList vs

/-- Operator dispatch of `_handle_field_filter` after `operator` and
`filter_value` have been resolved (lines 1056-1106 of
`async_vectorstore.py`).  Error payloads abbreviate the Python messages;
only the error/success distinction is used by the theorems. -/
def applyOperator (field : String) (op : String) (fv : FilterVal) : Except String String :=
  match List.lookup op COMPARISONS_TO_NATIVE with
  | some native =>
      let fvs :=
        match fv with
        | FilterVal.vStr s => "'" ++ s ++ "'"
        | v => pyStr v
      Except.ok ("(" ++ field ++ " " ++ native ++ " " ++ fvs ++ ")")
  | none =>
      if op = "$between" then
        match fv with
        | FilterVal.vList [low, high] =>
            Except.ok ("(" ++ field ++ " BETWEEN " ++ pyStr low ++ " AND " ++ pyStr high ++ ")")
        | _ => Except.error "ValueError: cannot unpack $between value into a low/high pair"
      else if op = "$in" ∨ op = "$nin" ∨ op = "$like" ∨ op = "$ilike" then
        match
          (if op = "$in" ∨ op = "$nin" then
            match fv with
            | FilterVal.vList l => checkInNinList l
            | _ => Except.error "TypeError: $in or $nin value is not iterable"
          else Except.ok ()) with
        | Except.error e => Except.error e
        | Except.ok _ =>
            if op = "$in" then
              match fv with
              | FilterVal.vList l => Except.ok ("(" ++ field ++ " IN " ++ pyTupleStr l ++ ")")
              | _ => Except.error "TypeError: $in value is not iterable"
            else if op = "$nin" then
              match fv with
              | FilterVal.vList l => Except.ok ("(" ++ field ++ " NOT IN " ++ pyTupleStr l ++ ")")
              | _ => Except.error "TypeError: $nin value is not iterable"
            else if op = "$like" then
              Except.ok ("(" ++ field ++ " LIKE '" ++ pyStr fv ++ "')")
            else
              Except.ok ("(" ++ field ++ " ILIKE '" ++ pyStr fv ++ "')")
      else if op = "$exists" then
        match fv with
        | FilterVal.vBool b =>
            if b then Except.ok ("(" ++ field ++ " IS NOT NULL)")
            else Except.ok ("(" ++ field ++ " IS NULL)")
        | _ => Except.error "ValueError: Expected a boolean value for $exists operator"
      else
        Except.error "NotImplementedError"

/-- `AsyncAlloyDBVectorStore._handle_field_filter` (lines 1002-1106): field
validation, operator/value resolution, then operator dispatch. -/
def handleFieldFilter (field : String) (value : FilterVal) : Except String String :=
  if startsWithDollar field then
    Except.error ("Invalid filter condition. Expected a field but got an operator: " ++ field)
  else if ¬ pyIsIdentifier field then
    Except.error ("Invalid field name: " ++ field ++ ". Expected a valid identifier.")
  else
    match value with
    | FilterVal.vDict d =>
        match d with
        | [(op, fv)] =>
            if ¬ SUPPORTED_OPERATORS.contains op then
              Except.error ("Invalid operator: " ++ op)
            else applyOperator field op fv
        | _ =>
            Except.error "Invalid filter condition. Expected a value which is a dictionary with a single key that corresponds to an operator"
    | v => applyOperator field "$eq" v

/-- List comprehension over `Except`: evaluates left to right and aborts at
the first raised error, like the Python comprehensions in
`_create_filter_clause`. -/
def mapMExcept : List FilterVal → (FilterVal → Except String String) → Except String (List String)
  | [], _ => Except.ok []
  | x :: xs, F => do
      let c ← F x
      let cs ← mapMExcept xs F
      pure (c :: cs)

/-- Comprehension `[self._handle_field_filter(k, v) for k, v in filters.items()]`
of the multi-key branch. -/
def mapMFieldPairs : List (String × FilterVal) → Except String (List String)
  | [] => Except.ok []
  | (k, v) :: ps => do
      let c ← handleFieldFilter k v
      let cs ← mapMFieldPairs ps
      pure (c :: cs)

/-- `AsyncAlloyDBVectorStore._create_filter_clause` (lines 1108-1192) with
explicit fuel; recursion happens only under the `$and`/`$or`/`$not`
combinators.  `cfcF 0` is never reached when the fuel exceeds the `fvSize`
of the input (`cfcF_irrel`). -/
def cfcF : Nat → FilterVal → Except String String
  | 0, _ => Except.error "model recursion fuel exhausted"
  | fuel + 1, filters =>
    match filters with
    | FilterVal.vDict d =>
      match d with
      | [] => Except.ok ""
      | [(key, value)] =>
          if startsWithDollar key then
            if ¬ ["$and", "$or", "$not"].contains (strToLower key) then
              Except.error ("Invalid filter condition. Expected $and, $or or $not but got: " ++ key)
            else if strToLower key = "$and" ∨ strToLower key = "$or" then
              match value with
              | FilterVal.vList els =>
                  match mapMExcept els (cfcF fuel) with
                  | Except.error e => Except.error e
                  | Except.ok clauses =>
                      if clauses.length > 1 then
                        Except.ok ("(" ++
                          String.intercalate (" " ++ strToUpper (strTail key) ++ " ") clauses ++ ")")
                      else if clauses.length = 1 then
                        Except.ok (clauses.getD 0 "")
                      else
                        Except.error "Invalid filter condition. Expected a dictionary but got an empty dictionary"
              | _ => Except.error "Expected a list for the value of $and or $or"
            else
              match value with
              | FilterVal.vList els =>
                  match mapMExcept els (cfcF fuel) with
                  | Except.error e => Except.error e
                  | Except.ok conds =>
                      Except.ok ("(" ++
                        String.intercalate " AND " (conds.map (fun c => "NOT " ++ c)) ++ ")")
              | FilterVal.vDict d' =>
                  match cfcF fuel (FilterVal.vDict d') with
                  | Except.error e => Except.error e
                  | Except.ok c => Except.ok ("(NOT " ++ c ++ ")")
              | _ => Except.error "Invalid filter condition. Expected a dictionary or a list for $not"
          else
            handleFieldFilter key value
      | _ :: _ :: _ =>
          match d.find? (fun kv => startsWithDollar kv.1) with
          | some kv =>
              Except.error ("Invalid filter condition. Expected a field but got: " ++ kv.1)
          | none =>
              match mapMFieldPairs d with
              | Except.error e => Except.error e
              | Except.ok and_ =>
                  if and_.length > 1 then
                    Except.ok ("(" ++ String.intercalate " AND " and_ ++ ")")
                  else if and_.length = 1 then
                    Except.ok (and_.getD 0 "")
                  else
                    Except.error "Invalid filter condition. Expected a dictionary but got an empty dictionary"
    | _ => Except.error "Invalid type: Expected a dictionary"

/-- The filter compiler `_create_filter_clause`, fuel instantiated with
`fvSize` (always sufficient, `cfcF_irrel`). -/
def createFilterClause (v : FilterVal) : Except String String :=
  cfcF (fvSize v + 1) v

/-- Error test on the compiler result (`True` exactly when the Python code
raises). -/
def isErr {α : Type} : Except String α → Bool
  | Except.error _ => true
  | Except.ok _ => false

/-- Python default for an optional integer parameter using truthiness, as in
`k = k if k else self.k` (`0` and `None` both fall back to the default). -/
def pyDefaultNat : Option Nat → Nat → Nat
  | none, d => d
  | some n, d => if n = 0 then d else n

/-- Python default for an optional float parameter using truthiness, as in
`lambda_mult = lambda_mult if lambda_mult else self.lambda_mult`
(`0.0` and `None` both fall back to the default). -/
def pyDefaultQ : Option ℚ → ℚ → ℚ
  | none, d => d
  | some q, d => if q = 0 then d else q

/-- Configuration fields of `AsyncAlloyDBVectorStore` used by the modelled
operations (constructor, lines 81-139 of `async_vectorstore.py`).
`distOperator` and `searchFunction` are the two strings resolved from the
distance strategy. -/
structure VectorStore where
  tableName : String
  schemaName : String
  contentColumn : String
  embeddingColumn : String
  metadataColumns : List String
  idColumn : String
  metadataJsonColumn : Option String
  distOperator : String
  searchFunction : String
  k : Nat
  fetchK : Nat
  lambdaMult : ℚ

/-- Row returned by the similarity-search query: the id, content and
embedding columns, the JSON metadata column value (`none` models SQL NULL),
the typed metadata column values, and the computed `distance` column.  The
embedding value is already decoded (`json.loads` of the vector column). -/
structure SearchRow where
  idVal : String
  contentVal : String
  embeddingVal : List ℚ
  jsonMetadata : Option (List (String × FilterVal))
  typedValues : List (String × FilterVal)
  distance : ℚ

/-- The external document model: `langchain_core.documents.Document` as
constructed by the decode loops (`page_content`, `metadata`, `id`). -/
structure Document where
  pageContent : String
  metadata : List (String × FilterVal)
  docId : String

/-- Python dict read `d[c]` (first matching key of the association list;
Python dicts have unique keys). -/
def dictLookup : List (String × FilterVal) → String → Option FilterVal
  | [], _ => none
  | (k, v) :: ps, c => if k = c then some v else dictLookup ps c

/-- Python dict assignment `d[k] = v`: replaces the value in place when the
key is present (keeping its position), appends otherwise. -/
def dictSet : List (String × FilterVal) → String → FilterVal → List (String × FilterVal)
  | [], k, v => [(k, v)]
  | (k0, v0) :: ps, k, v => if k0 = k then (k, v) :: ps else (k0, v0) :: dictSet ps k v

/-- Row access `row[col]` for a typed metadata column.  The SELECT always
lists every configured metadata column, so the lookup succeeds on rows the
database returns; the `vNone` default is unreachable for such rows. -/
def rowTypedVal (row : SearchRow) (col : String) : FilterVal :=
  (dictLookup row.typedValues col).getD FilterVal.vNone

/-- Base metadata before typed-column assignment:
`row[json_col] if self.metadata_json_column and row[json_col] else {}`
(lines 764-768 and 983-987 of `async_vectorstore.py`). -/
def jsonBaseMetadata (store : VectorStore) (row : SearchRow) : List (String × FilterVal) :=
  match store.metadataJsonColumn with
  | none => []
  | some _ =>
      match row.jsonMetadata with
      | none => []
      | some d => if d.isEmpty then [] else d

/-- Metadata decode loop shared by `asimilarity_search_with_score_by_vector`
(lines 762-770), `amax_marginal_relevance_search_with_score_by_vector`
(lines 854-861) and `aget_by_ids` (lines 981-989): start from the JSON
column contents, then assign `metadata[col] = row[col]` for each typed
metadata column in order. -/
def decodeMetadata (store : VectorStore) (row : SearchRow) : List (String × FilterVal) :=
  store.metadataColumns.foldl (fun m col => dictSet m col (rowTypedVal row col))
    (jsonBaseMetadata store row)

/-- Document constructed from one result row. -/
def decodeDocument (store : VectorStore) (row : SearchRow) : Document :=
  { pageContent := row.contentVal, metadata := decodeMetadata store row, docId := row.idVal }

/-- Row cap resolution of `__query_collection` (line 609):
`k = k if k else self.k`. -/
def queryCollectionLimit (store : VectorStore) (k : Option Nat) : Nat :=
  pyDefaultNat k store.k

/-- Filter argument of a search call: a structured dict or a raw SQL string. -/
inductive PyFilterArg where
  | dictArg : List (String × FilterVal) → PyFilterArg
  | strArg : String → PyFilterArg

/-- Filter handling of `__query_collection` (lines 623-625): a truthy dict
is compiled, then `filter = f"WHERE \x7bfilter\x7d" if filter else ""`.  An
empty dict is falsy, so it is neither compiled nor rendered. -/
def queryFilterClause : Option PyFilterArg → Except String String
  | none => Except.ok ""
  | some (PyFilterArg.strArg s) => Except.ok (if s = "" then "" else "WHERE " ++ s)
  | some (PyFilterArg.dictArg []) => Except.ok ""
  | some (PyFilterArg.dictArg d) => do
      let c ← createFilterClause (FilterVal.vDict d)
      pure (if c = "" then "" else "WHERE " ++ c)

/-- Python `repr` of a float; exact for floats holding integer values (the
only ones the concrete theorems evaluate). -/
def pyFloatRepr (q : ℚ) : String :=
  if q.den = 1 then toString q.num ++ ".0" else toString q

/-- Rendering of `[float(dimension) for dimension in embedding]`. -/
def pyFloatListStr (e : List ℚ) : String :=
  "[" ++ String.intercalate ", " (e.map pyFloatRepr) ++ "]"

/-- Query-vector literal of `__query_collection` (lines 626-630): the
inline-embedding branch applies only when the embedding list is empty, the
service has `embed_query_inline` and the call passed `query`. -/
def queryEmbeddingStr (inlineEmbed : Option (String → String)) (kwargsQuery : Option String)
    (embedding : List ℚ) : String :=
  match embedding, inlineEmbed, kwargsQuery with
  | [], some f, some q => f q
  | e, _, _ => "'" ++ pyFloatListStr e ++ "'"

/-- SELECT statement built by `__query_collection` (lines 613-631). -/
def queryCollectionStmt (store : VectorStore) (qEmbStr : String) (k : Option Nat)
    (filter : Option PyFilterArg) : Except String String := do
  let columns := store.metadataColumns ++
    [store.idColumn, store.contentColumn, store.embeddingColumn] ++
    (match store.metadataJsonColumn with | some c => [c] | none => [])
  let columnNames := String.intercalate ", " (columns.map (fun c => "\"" ++ c ++ "\""))
  let whereClause ← queryFilterClause filter
  pure ("SELECT " ++ columnNames ++ ", " ++ store.searchFunction ++ "(" ++
    store.embeddingColumn ++ ", " ++ qEmbStr ++ ") as distance FROM \"" ++
    store.schemaName ++ "\".\"" ++ store.tableName ++ "\" " ++ whereClause ++
    " ORDER BY " ++ store.embeddingColumn ++ " " ++ store.distOperator ++ " " ++
    qEmbStr ++ " LIMIT " ++ toString (queryCollectionLimit store k) ++ ";")

/-- Row cap actually used for the MMR candidate fetch:
`amax_marginal_relevance_search_with_score_by_vector` forwards its raw
`fetch_k` argument as `__query_collection`'s `k` (lines 838-839), before
the line `fetch_k = fetch_k if fetch_k else self.fetch_k` (line 843) runs,
so an omitted `fetch_k` falls back to `self.k`, not `self.fetch_k`. -/
def mmrCandidateLimit (store : VectorStore) (fetchK : Option Nat) : Nat :=
  queryCollectionLimit store fetchK

/-- Rational dot product of two vectors. -/
def dotQ : List ℚ → List ℚ → ℚ
  | x :: xs, y :: ys => x * y + dotQ xs ys
  | _, _ => 0

/-- Exact square root for rationals whose numerator and denominator are
perfect squares; agrees with the floating-point square root on every input
the theorems evaluate (squared norms equal to `1`). -/
def sqrtQ (q : ℚ) : ℚ := (Nat.sqrt q.num.toNat : ℚ) / (Nat.sqrt q.den : ℚ)

/-- Modelled from the spec: cosine similarity `sim(x, y)` used by the
greedy marginal-relevance algorithm (the library function
`langchain_core.vectorstores.utils.cosine_similarity` is not part of this
repository). -/
def cosineSimilarity (x y : List ℚ) : ℚ :=
  dotQ x y / (sqrtQ (dotQ x x) * sqrtQ (dotQ y y))

/-- Index scan of `np.argmax`: first index attaining the maximum. -/
def argmaxAux : List ℚ → Nat → Nat → ℚ → Nat
  | [], _, best, _ => best
  | x :: xs, i, best, bv =>
      if x > bv then argmaxAux xs (i + 1) i x else argmaxAux xs (i + 1) best bv

/-- Position of the first maximum of a list (`np.argmax`). -/
def argmaxFirst : List ℚ → Nat
  | [] => 0
  | x :: xs => argmaxAux xs 1 0 x

/-- Maximum of a nonempty list (`max(...)` over the similarities to the
already-selected candidates; the empty default is never reached because the
selection starts nonempty). -/
def listMaxD : List ℚ → ℚ
  | [] => 0
  | x :: xs => xs.foldl max x

/-- Inner candidate scan of the greedy loop: skip already-selected indices,
score each remaining candidate by
`lambda * sim_to_query - (1 - lambda) * max_sim_to_selected`, keep the
first strict maximum (ties break to the first-seen candidate). -/
def mmrPickAux (lam : ℚ) (redundant : Nat → ℚ) :
    List (Nat × ℚ) → Option (Nat × ℚ) → Option Nat
  | [], best => best.map Prod.fst
  | (i, qs) :: rest, best =>
      let score := lam * qs - (1 - lam) * redundant i
      match best with
      | none => mmrPickAux lam redundant rest (some (i, score))
      | some (bi, bs) =>
          if score > bs then mmrPickAux lam redundant rest (some (i, score))
          else mmrPickAux lam redundant rest (some (bi, bs))

/-- One greedy selection step over the not-yet-selected candidates. -/
def mmrPick (lam : ℚ) (simq : List ℚ) (simf : Nat → Nat → ℚ) (idxs : List Nat) : Option Nat :=
  mmrPickAux lam (fun i => listMaxD (idxs.map (fun j => simf i j)))
    (simq.enum.filter (fun p => ¬ idxs.contains p.1)) none

/-- Greedy selection loop, one picked index per iteration. -/
def mmrLoop (lam : ℚ) (simq : List ℚ) (simf : Nat → Nat → ℚ) : Nat → List Nat → List Nat
  | 0, idxs => idxs
  | fuel + 1, idxs =>
      match mmrPick lam simq simf idxs with
      | none => idxs
      | some i => mmrLoop lam simq simf fuel (idxs ++ [i])

/-- Modelled from the spec: the standard greedy marginal-relevance
selection (`langchain_core.vectorstores.utils.maximal_marginal_relevance`
is not part of this repository).  Returns the selected candidate indices in
selection order: the first pick is the index most similar to the query, and
each further pick maximizes
`lambda * sim(query, candidate) - (1 - lambda) * max_sim(candidate, selected)`,
ties broken to the first-seen candidate. -/
def maximalMarginalRelevance (queryEmbedding : List ℚ) (embeddingList : List (List ℚ))
    (lam : ℚ) (k : Nat) : List Nat :=
  if k = 0 ∨ embeddingList.isEmpty then []
  else
    let simq := embeddingList.map (fun e => cosineSimilarity queryEmbedding e)
    let simf := fun i j =>
      cosineSimilarity (embeddingList.getD i []) (embeddingList.getD j [])
    mmrLoop lam simq simf (min k embeddingList.length - 1) [argmaxFirst simq]

/-- Documents-with-scores decode loop shared by the similarity and MMR
searches: one `(Document, distance)` pair per fetched row, in fetch order. -/
def docsWithScores (store : VectorStore) (rows : List SearchRow) : List (Document × ℚ) :=
  rows.map (fun row => (decodeDocument store row, row.distance))

/-- Selection of the entries of `l` whose positions lie in `sel`, kept in
the order of `l` (the list comprehension
`[r for i, r in enumerate(documents_with_scores) if i in mmr_selected]`). -/
def fetchOrderSelect {α : Type} (l : List α) (sel : List Nat) : List α :=
  (l.enum.filter (fun p => sel.contains p.1)).map Prod.snd

/-- `amax_marginal_relevance_search_with_score_by_vector` (lines 828-873)
after the candidate rows have been fetched: resolve the defaults (note the
fetch itself already happened with the raw `fetch_k`, see
`mmrCandidateLimit`), run the greedy selection over the decoded embeddings,
decode every row, and keep the pairs whose index was selected — by index
membership, in fetch order. -/
def amaxMarginalRelevanceSearchWithScoreByVector (store : VectorStore) (embedding : List ℚ)
    (rows : List SearchRow) (k _fetchK : Option Nat) (lambdaMult : Option ℚ) :
    List (Document × ℚ) :=
  let kv := pyDefaultNat k store.k
  let lam := pyDefaultQ lambdaMult store.lambdaMult
  let embeddingList := rows.map (fun r => r.embeddingVal)
  let mmrSelected := maximalMarginalRelevance embedding embeddingList lam kv
  ((docsWithScores store rows).enum.filter (fun p => mmrSelected.contains p.1)).map Prod.snd

/-- Stored table row for the write-path models (`aadd_embeddings`,
`adelete`): the id column, content, embedding, JSON metadata and typed
metadata columns. -/
structure StoredRow where
  rowId : String
  content : String
  embedding : List ℚ
  jsonMeta : List (String × FilterVal)
  typedMeta : List (String × FilterVal)

/-- `adelete` (lines 439-457): an empty or absent id list returns `False`
without touching the database; otherwise one DELETE statement removes every
row whose id is in the list and the call returns `True` regardless of how
many rows matched.  The third component counts the database statements
issued. -/
def adelete (tbl : List StoredRow) (ids : Option (List String)) :
    List StoredRow × Bool × Nat :=
  match ids with
  | none => (tbl, false, 0)
  | some [] => (tbl, false, 0)
  | some l => (tbl.filter (fun r => ¬ l.contains r.rowId), true, 1)

/-- Semantics of one `INSERT ... ON CONFLICT (id) DO UPDATE` statement
(lines 282-327): on id conflict the content, embedding, JSON metadata and
typed metadata columns are all overwritten in place; otherwise the row is
appended. -/
def upsertRow (tbl : List StoredRow) (r : StoredRow) : List StoredRow :=
  if tbl.any (fun x => x.rowId = r.rowId) then
    tbl.map (fun x => if x.rowId = r.rowId then r else x)
  else tbl ++ [r]

/-- `aadd_embeddings` write loop (lines 276-332): one statement-and-commit
per zipped input record, in input order, with no surrounding transaction.
`failOn` models the database raising on a statement (for example an id
whose type does not match the id column); the exception propagates, so
iteration stops there.  Returns the table after the committed statements,
the number of committed statements, and whether the loop completed. -/
def aaddEmbeddingsRun (failOn : StoredRow → Bool) :
    List StoredRow → List StoredRow → List StoredRow × Nat × Bool
  | tbl, [] => (tbl, 0, true)
  | tbl, r :: rs =>
      if failOn r then (tbl, 0, false)
      else
        let res := aaddEmbeddingsRun failOn (upsertRow tbl r) rs
        (res.1, res.2.1 + 1, res.2.2)

/-- `AlloyDBEngine` state relevant to the sync bridge: whether the engine
owns a background event loop and thread (`_loop`, `_thread`). -/
structure AlloyDBEngineModel where
  hasLoop : Bool
  hasThread : Bool

/-- `AlloyDBEngine.from_engine` (lines 315-318): wraps an externally
supplied async engine with `loop=None, thread=None`. -/
def fromEngine : AlloyDBEngineModel := { hasLoop := false, hasThread := false }

/-- Engine produced by the synchronous factory path (`from_instance`,
lines 141-188): a fresh background event loop and thread are created and
stored. -/
def fromInstanceSyncEngine : AlloyDBEngineModel := { hasLoop := true, hasThread := true }

/-- `AlloyDBEngine._run_as_sync` (lines 351-355): raises before running the
coroutine when the engine has no owned loop, otherwise marshals the
coroutine onto the loop and returns its result.  The coroutine is a state
transformer; when the bridge raises, the state is untouched (the coroutine
never ran). -/
def runAsSync {σ α : Type} (e : AlloyDBEngineModel) (coro : σ → σ × α) (s : σ) :
    σ × Except String α :=
  if ¬ e.hasLoop then (s, Except.error "Engine was initialized async.")
  else
    let r := coro s
    (r.1, Except.ok r.2)

/-- Coroutine of `_aexecute`: appends the executed statement to the
database log (the observable effect used by the bridge theorems). -/
def aexecuteCoro (query : String) (log : List String) : List String × Unit :=
  (log ++ [query], ())

/-- `AlloyDBEngine._execute` (lines 343-345): the sync facade routes
`_aexecute` through `_run_as_sync`. -/
def engExecute (e : AlloyDBEngineModel) (query : String) (log : List String) :
    List String × Except String Unit :=
  runAsSync e (aexecuteCoro query) log

/-- Equality-comparison literal of `_handle_field_filter`: strings are
single-quoted, every other value is interpolated with Python `str`. -/
def eqLiteral (v : FilterVal) : String :=
  match v with
  | FilterVal.vStr s => "'" ++ s ++ "'"
  | v => pyStr v

/-- Scalar filter values (string, int, bool) for implicit-equality filters. -/
def isScalarVal : FilterVal → Bool
  | FilterVal.vStr _ => true
  | FilterVal.vInt _ => true
  | FilterVal.vBool _ => true
  | _ => false

/-- Store used by the concrete MMR evaluations: defaults `k = 4`,
`fetch_k = 20`, and store-level `lambda_mult = 0` (pure-diversity
selection), no typed or JSON metadata columns. -/
def mmrStore : VectorStore :=
  { tableName := "items", schemaName := "public", contentColumn := "content",
    embeddingColumn := "embedding", metadataColumns := [], idColumn := "langchain_id",
    metadataJsonColumn := none, distOperator := "<=>", searchFunction := "cosine_distance",
    k := 4, fetchK := 20, lambdaMult := 0 }

/-- First fetched candidate row (nearest to the query). -/
def mmrRow0 : SearchRow :=
  { idVal := "0", contentVal := "d0", embeddingVal := [1, 0], jsonMetadata := none,
    typedValues := [], distance := 0 }

/-- Second fetched candidate row (a duplicate of the first embedding). -/
def mmrRow1 : SearchRow :=
  { idVal := "1", contentVal := "d1", embeddingVal := [1, 0], jsonMetadata := none,
    typedValues := [], distance := 0 }

/-- Third fetched candidate row (orthogonal to the query). -/
def mmrRow2 : SearchRow :=
  { idVal := "2", contentVal := "d2", embeddingVal := [0, 1], jsonMetadata := none,
    typedValues := [], distance := 1 }

/-- Store used by the fetch-limit evaluation: `k = 4`, `fetch_k = 20`. -/
def limStore : VectorStore :=
  { tableName := "items", schemaName := "public", contentColumn := "content",
    embeddingColumn := "embedding", metadataColumns := [], idColumn := "langchain_id",
    metadataJsonColumn := none, distOperator := "<=>", searchFunction := "cosine_distance",
    k := 4, fetchK := 20, lambdaMult := 1/2 }

/-- Table used by the delete witness. -/
def delTable : List StoredRow :=
  [{ rowId := "a", content := "doc", embedding := [], jsonMeta := [], typedMeta := [] }]
/-- Records used by the add witness. -/
def addRecA : StoredRow :=
  { rowId := "r1", content := "c1", embedding := [], jsonMeta := [], typedMeta := [] }
/-- Failing record used by the add witness. -/
def addRecBad : StoredRow :=
  { rowId := "bad", content := "c2", embedding := [], jsonMeta := [], typedMeta := [] }
/-- Trailing record used by the add witness. -/
def addRecC : StoredRow :=
  { rowId := "r3", content := "c3", embedding := [], jsonMeta := [], typedMeta := [] }
/-! Helper lemmas. -/

/-- Reading a key just assigned by `dictSet` yields the assigned value. -/
theorem dictLookup_dictSet_self (d : List (String × FilterVal)) (k : String) (v : FilterVal) :
    dictLookup (dictSet d k v) k = some v := by
  induction d with
  | nil => simp [dictSet, dictLookup]
  | cons p ps ih =>
      obtain ⟨k0, v0⟩ := p
      by_cases h : k0 = k
      · simp [dictSet, dictLookup, h]
      · simp [dictSet, dictLookup, h, ih]

/-- Reading a different key after `dictSet` is unchanged. -/
theorem dictLookup_dictSet_ne (d : List (String × FilterVal)) (k : String) (v : FilterVal)
    (c : String) (h : c ≠ k) : dictLookup (dictSet d k v) c = dictLookup d c := by
  induction d with
  | nil => simp [dictSet, dictLookup, Ne.symm h]
  | cons p ps ih =>
      obtain ⟨k0, v0⟩ := p
      by_cases h0 : k0 = k
      · subst h0
        simp [dictSet, dictLookup, Ne.symm h]
      · by_cases h1 : k0 = c
        · subst h1
          simp [dictSet, dictLookup, h0, h]
        · simp [dictSet, dictLookup, h0, h1, ih]

/-- Typed-column assignment loop: after folding `dictSet` over the column
list, a typed column reads back its row value (regardless of the starting
metadata), and any other key reads from the starting metadata. -/
theorem dictLookup_foldl_dictSet (row : SearchRow) (cols : List String)
    (m : List (String × FilterVal)) (c : String) :
    dictLookup (cols.foldl (fun acc col => dictSet acc col (rowTypedVal row col)) m) c =
      if c ∈ cols then some (rowTypedVal row c) else dictLookup m c := by
  induction cols generalizing m with
  | nil => simp
  | cons col cols ih =>
      by_cases hmem : c ∈ cols
      · simp [List.foldl_cons, ih, hmem]
      · by_cases hc : c = col
        · subst hc
          simp [List.foldl_cons, ih, hmem, dictLookup_dictSet_self]
        · simp [List.foldl_cons, ih, hmem, hc, dictLookup_dictSet_ne _ _ _ _ hc]

/-! Claim theorems. -/

/-- C7: for every decoded row, the result metadata is the flat merge of the
JSON metadata column contents with the typed metadata columns, and a typed
column always wins over a same-named JSON key, because the typed assignment
runs after the JSON unpack and overwrites it. -/
theorem decodeMetadata_typed_overwrites_json (store : VectorStore) (row : SearchRow)
    (c : String) :
    dictLookup (decodeMetadata store row) c =
      if c ∈ store.metadataColumns then some (rowTypedVal row c)
      else dictLookup (jsonBaseMetadata store row) c := by
  simpa [decodeMetadata] using
    dictLookup_foldl_dictSet row store.metadataColumns (jsonBaseMetadata store row) c

/-- C6: `adelete` with an absent or empty id list returns `False` and
issues no statement (state unchanged); with a nonempty id list it issues
one DELETE removing exactly the matching rows and returns `True`, whether
or not any row matched. -/
theorem adelete_empty_noop_nonempty_true :
    (∀ tbl : List StoredRow, adelete tbl none = (tbl, false, 0)) ∧
    (∀ tbl : List StoredRow, adelete tbl (some []) = (tbl, false, 0)) ∧
    (∀ (tbl : List StoredRow) (l : List String), l ≠ [] →
      adelete tbl (some l) = (tbl.filter (fun r => ¬ l.contains r.rowId), true, 1)) := by
  refine ⟨fun tbl => rfl, fun tbl => rfl, fun tbl l hl => ?_⟩
  cases l with
  | nil => exact absurd rfl hl
  | cons a as => rfl


/-- Witness for C6: deleting a non-matching nonempty id set returns `True`
with one statement and an unchanged table. -/
theorem adelete_empty_noop_nonempty_true_witness :
    adelete delTable (some ["b"]) = (delTable, true, 1) := by
  have h := adelete_empty_noop_nonempty_true.2.2 delTable ["b"] (by decide)
  exact h

/-- C9: every synchronous call routed through `_run_as_sync` on an engine
built by `from_engine` (no owned loop) raises before the coroutine runs
(the state is untouched); on an engine owning a loop the bridge runs the
coroutine and returns its result.  The third part instantiates the gate for
the `_execute` facade. -/
theorem runAsSync_requires_owned_loop :
    (∀ (σ α : Type) (coro : σ → σ × α) (s : σ),
      runAsSync fromEngine coro s = (s, Except.error "Engine was initialized async.")) ∧
    (∀ (σ α : Type) (coro : σ → σ × α) (s : σ) (e : AlloyDBEngineModel),
      e.hasLoop = true → runAsSync e coro s = ((coro s).1, Except.ok (coro s).2)) ∧
    (∀ (query : String) (log : List String),
      engExecute fromEngine query log = (log, Except.error "Engine was initialized async.")) := by
  refine ⟨fun σ α coro s => rfl, fun σ α coro s e he => ?_, fun query log => rfl⟩
  simp [runAsSync, he]

/-- Witness for C9: the no-loop engine rejects a concrete statement without
logging it, and the loop-owning engine executes it. -/
theorem runAsSync_requires_owned_loop_witness :
    runAsSync fromEngine (aexecuteCoro "SELECT 1") ([] : List String) =
      ([], Except.error "Engine was initialized async.") ∧
    runAsSync fromInstanceSyncEngine (aexecuteCoro "SELECT 1") ([] : List String) =
      (["SELECT 1"], Except.ok ()) := by
  constructor
  · exact runAsSync_requires_owned_loop.1 _ _ _ _
  · exact runAsSync_requires_owned_loop.2.1 (List String) Unit (aexecuteCoro "SELECT 1") [] fromInstanceSyncEngine rfl

/-- C8: the add loop commits one upsert per input record in input order;
when every statement succeeds all records are committed, and when the
statement for one record fails, exactly the records before it stay
committed and nothing at or after it is written. -/
theorem aadd_embeddings_per_record_commit :
    (∀ (failOn : StoredRow → Bool) (tbl recs : List StoredRow),
      (∀ r ∈ recs, failOn r = false) →
      aaddEmbeddingsRun failOn tbl recs = (recs.foldl upsertRow tbl, recs.length, true)) ∧
    (∀ (failOn : StoredRow → Bool) (tbl pre : List StoredRow) (r : StoredRow)
      (post : List StoredRow),
      (∀ x ∈ pre, failOn x = false) → failOn r = true →
      aaddEmbeddingsRun failOn tbl (pre ++ r :: post) =
        (pre.foldl upsertRow tbl, pre.length, false)) := by
  constructor
  · intro failOn tbl recs h
    induction recs generalizing tbl with
    | nil => rfl
    | cons a as ih =>
        have ha : failOn a = false := h a (List.mem_cons_self a as)
        have hs : ∀ r ∈ as, failOn r = false := fun r hr => h r (List.mem_cons_of_mem a hr)
        simp [aaddEmbeddingsRun, ha, ih (upsertRow tbl a) hs, List.foldl_cons]
  · intro failOn tbl pre r post hpre hr
    induction pre generalizing tbl with
    | nil => simp [aaddEmbeddingsRun, hr]
    | cons a as ih =>
        have ha : failOn a = false := hpre a (List.mem_cons_self a as)
        have hs : ∀ x ∈ as, failOn x = false := fun x hx => hpre x (List.mem_cons_of_mem a hx)
        simp [aaddEmbeddingsRun, ha, ih (upsertRow tbl a) hs, List.foldl_cons]




/-- Witness for C8: with the statement for the second record failing, only
the first record is committed and the third is never written. -/
theorem aadd_embeddings_per_record_commit_witness :
    aaddEmbeddingsRun (fun r => r.rowId = "bad") [] [addRecA, addRecBad, addRecC] =
      ([addRecA], 1, false) := by
  have h := aadd_embeddings_per_record_commit.2 (fun r => decide (r.rowId = "bad"))
    [] [addRecA] addRecBad [addRecC] (by decide) (by decide)
  exact h

/-- Positivity of the structural size. -/
theorem fvSize_pos (v : FilterVal) : 1 ≤ fvSize v := by
  cases v <;> simp [fvSize]

/-- Size of a list member. -/
theorem fvSize_lt_of_mem {x : FilterVal} {l : List FilterVal} (h : x ∈ l) :
    fvSize x < fvSizeList l := by
  induction l with
  | nil => cases h
  | cons y ys ih =>
      rcases List.mem_cons.mp h with rfl | h'
      · simp only [fvSizeList]; omega
      · have hh := ih h'; simp only [fvSizeList]; omega

/-- Size computation for a single-entry dict. -/
theorem fvSize_dict_pair (k : String) (v : FilterVal) :
    fvSize (FilterVal.vDict [(k, v)]) = fvSize v + 2 := by
  simp [fvSize, fvSizePairs]

/-- Congruence for the abort-on-error comprehension. -/
theorem mapMExcept_congr {l : List FilterVal} {F G : FilterVal → Except String String}
    (h : ∀ x ∈ l, F x = G x) : mapMExcept l F = mapMExcept l G := by
  induction l with
  | nil => rfl
  | cons x xs ih =>
      simp only [mapMExcept]
      rw [h x (List.mem_cons_self x xs), ih (fun y hy => h y (List.mem_cons_of_mem x hy))]

/-- Fuel irrelevance for the filter compiler: any fuel at least the
structural size of the input gives the same result, so `createFilterClause`
never hits the fuel bound. -/
theorem cfcF_irrel : ∀ (f g : Nat) (v : FilterVal), fvSize v ≤ f → fvSize v ≤ g →
    cfcF f v = cfcF g v := by
  intro f
  induction f with
  | zero =>
      intro g v hf _
      exact absurd hf (by have := fvSize_pos v; omega)
  | succ f ih =>
      intro g v hf hg
      obtain ⟨g', rfl⟩ : ∃ gg, g = gg + 1 := by
        cases g with
        | zero => exact absurd hg (by have := fvSize_pos v; omega)
        | succ gg => exact ⟨gg, rfl⟩
      cases v with
      | vStr s => rfl
      | vInt n => rfl
      | vBool b => rfl
      | vNone => rfl
      | vList l => rfl
      | vDict d =>
          rcases d with _ | ⟨⟨key, value⟩, _ | ⟨kv2, rest⟩⟩
          · rfl
          · have hfs : fvSize value + 2 ≤ f + 1 := by rw [fvSize_dict_pair] at hf; omega
            have hgs : fvSize value + 2 ≤ g' + 1 := by rw [fvSize_dict_pair] at hg; omega
            cases value with
            | vStr s => rfl
            | vInt n => rfl
            | vBool b => rfl
            | vNone => rfl
            | vList els =>
                have hcongr : mapMExcept els (cfcF f) = mapMExcept els (cfcF g') :=
                  mapMExcept_congr (fun x hx => ih g' x
                    (by have h1 := fvSize_lt_of_mem hx
                        simp only [fvSize] at hfs
                        omega)
                    (by have h1 := fvSize_lt_of_mem hx
                        simp only [fvSize] at hgs
                        omega))
                simp only [cfcF, hcongr]
            | vDict d' =>
                have hcongr : cfcF f (FilterVal.vDict d') = cfcF g' (FilterVal.vDict d') :=
                  ih g' (FilterVal.vDict d') (by omega) (by omega)
                simp only [cfcF, hcongr]
          · rfl

/-- Two-element intercalation. -/
theorem strIntercalate_pair (s a b : String) : String.intercalate s [a, b] = a ++ s ++ b := rfl

/-- Top-level single-key dispatch to the field-filter handler when the key
is not an operator. -/
theorem createFilterClause_single_field (key : String) (value : FilterVal)
    (hd : startsWithDollar key = false) :
    createFilterClause (FilterVal.vDict [(key, value)]) = handleFieldFilter key value := by
  simp [createFilterClause, cfcF, hd]

/-- Transport of a compiler result to any sufficient fuel. -/
theorem cfc_to_cfcF (v : FilterVal) (F : Nat) (hF : fvSize v ≤ F) (c : String)
    (h : createFilterClause v = Except.ok c) : cfcF F v = Except.ok c := by
  rw [cfcF_irrel F (fvSize v + 1) v hF (by omega)]
  exact h

/-- The `$and` combinator over two sub-expressions compiles to the
conjunction of the compiled sub-expressions. -/
theorem createFilterClause_and_pair (e1 e2 : FilterVal) (c1 c2 : String)
    (h1 : createFilterClause e1 = Except.ok c1) (h2 : createFilterClause e2 = Except.ok c2) :
    createFilterClause (FilterVal.vDict [("$and", FilterVal.vList [e1, e2])]) =
      Except.ok ("(" ++ c1 ++ " AND " ++ c2 ++ ")") := by
  have hbub : fvSize e1 ≤ fvSize (FilterVal.vDict [("$and", FilterVal.vList [e1, e2])]) ∧
      fvSize e2 ≤ fvSize (FilterVal.vDict [("$and", FilterVal.vList [e1, e2])]) := by
    rw [fvSize_dict_pair]
    simp only [fvSize, fvSizeList]
    omega
  have he1 := cfc_to_cfcF e1 _ hbub.1 c1 h1
  have he2 := cfc_to_cfcF e2 _ hbub.2 c2 h2
  show cfcF (fvSize (FilterVal.vDict [("$and", FilterVal.vList [e1, e2])]) + 1)
      (FilterVal.vDict [("$and", FilterVal.vList [e1, e2])]) = _
  generalize fvSize (FilterVal.vDict [("$and", FilterVal.vList [e1, e2])]) = G at he1 he2 ⊢
  have hA : startsWithDollar "$and" = true := by decide
  have hL : strToLower "$and" = "$and" := by decide
  have hU : strToUpper (strTail "$and") = "AND" := by decide
  simp only [cfcF, mapMExcept, he1, he2]
  simp [hA, hL, hU, strIntercalate_pair, String.append_assoc, Except.instMonad,
    Except.bind, Except.pure]

/-- Success of the `$in`/`$nin` element check over booleans-free scalars. -/
theorem checkInNinList_ok {l : List FilterVal}
    (h : ∀ v ∈ l, pyIsInstStrIntFloat v = true ∧ pyIsInstBool v = false) :
    checkInNinList l = Except.ok () := by
  induction l with
  | nil => rfl
  | cons v vs ih =>
      have hv := h v (List.mem_cons_self v vs)
      simp [checkInNinList, hv.1, hv.2, ih (fun x hx => h x (List.mem_cons_of_mem v hx))]

/-- Literal regrouping of the equality-predicate pieces. -/
theorem strEqGlue (x y : String) :
    "(" ++ x ++ " " ++ "=" ++ " " ++ y ++ ")" = "(" ++ x ++ " = " ++ y ++ ")" := by
  have h1 : (" " : String) ++ ("=" ++ " ") = " = " := by decide
  calc "(" ++ x ++ " " ++ "=" ++ " " ++ y ++ ")"
      = "(" ++ (x ++ (" " ++ ("=" ++ " ") ) ++ (y ++ ")")) := by simp [String.append_assoc]
    _ = "(" ++ x ++ " = " ++ y ++ ")" := by rw [h1]; simp [String.append_assoc]

/-- Implicit equality filter on a valid field and scalar value. -/
theorem handleFieldFilter_eq_scalar (f : String) (v : FilterVal)
    (hd : startsWithDollar f = false) (hid : pyIsIdentifier f = true)
    (hs : isScalarVal v = true) :
    handleFieldFilter f v = Except.ok ("(" ++ f ++ " = " ++ eqLiteral v ++ ")") := by
  cases v with
  | vStr s => simp [handleFieldFilter, hd, hid, applyOperator, COMPARISONS_TO_NATIVE,
      List.lookup, eqLiteral, ← strEqGlue]
  | vInt n => simp [handleFieldFilter, hd, hid, applyOperator, COMPARISONS_TO_NATIVE,
      List.lookup, eqLiteral, ← strEqGlue]
  | vBool b => simp [handleFieldFilter, hd, hid, applyOperator, COMPARISONS_TO_NATIVE,
      List.lookup, eqLiteral, ← strEqGlue]
  | vNone => simp [isScalarVal] at hs
  | vList l => simp [isScalarVal] at hs
  | vDict d => simp [isScalarVal] at hs

/-- Membership filter on a valid field and a boolean-free scalar list. -/
theorem handleFieldFilter_in_list (f : String) (l : List FilterVal)
    (hd : startsWithDollar f = false) (hid : pyIsIdentifier f = true)
    (hel : ∀ v ∈ l, pyIsInstStrIntFloat v = true ∧ pyIsInstBool v = false) :
    handleFieldFilter f (FilterVal.vDict [("$in", FilterVal.vList l)]) =
      Except.ok ("(" ++ f ++ " IN " ++ pyTupleStr l ++ ")") := by
  simp [handleFieldFilter, hd, hid, applyOperator, COMPARISONS_TO_NATIVE, List.lookup,
    SUPPORTED_OPERATORS, SPECIAL_CASED_OPERATORS, TEXT_OPERATORS, LOGICAL_OPERATORS,
    checkInNinList_ok hel]

/-- C3: the filter compiler maps well-formed inputs to the corresponding
predicates: a single-key mapping with a scalar value compiles to an
equality predicate on the field, a `$in` list compiles to a set-membership
predicate, and `$and` of two sub-expressions compiles to the conjunction of
the compiled sub-expressions. -/
theorem filter_compiler_wellformed_inputs :
    (∀ (f : String) (v : FilterVal),
      startsWithDollar f = false → pyIsIdentifier f = true → isScalarVal v = true →
      createFilterClause (FilterVal.vDict [(f, v)]) =
        Except.ok ("(" ++ f ++ " = " ++ eqLiteral v ++ ")")) ∧
    (∀ (f : String) (l : List FilterVal),
      startsWithDollar f = false → pyIsIdentifier f = true →
      (∀ v ∈ l, pyIsInstStrIntFloat v = true ∧ pyIsInstBool v = false) →
      createFilterClause (FilterVal.vDict [(f, FilterVal.vDict [("$in", FilterVal.vList l)])]) =
        Except.ok ("(" ++ f ++ " IN " ++ pyTupleStr l ++ ")")) ∧
    (∀ (e1 e2 : FilterVal) (c1 c2 : String),
      createFilterClause e1 = Except.ok c1 → createFilterClause e2 = Except.ok c2 →
      createFilterClause (FilterVal.vDict [("$and", FilterVal.vList [e1, e2])]) =
        Except.ok ("(" ++ c1 ++ " AND " ++ c2 ++ ")")) := by
  refine ⟨fun f v hd hid hs => ?_, fun f l hd hid hel => ?_,
    fun e1 e2 c1 c2 h1 h2 => createFilterClause_and_pair e1 e2 c1 c2 h1 h2⟩
  · rw [createFilterClause_single_field f v hd]
    exact handleFieldFilter_eq_scalar f v hd hid hs
  · rw [createFilterClause_single_field f _ hd]
    exact handleFieldFilter_in_list f l hd hid hel

/-- Witness for C3 at the spec's own examples. -/
theorem filter_compiler_wellformed_inputs_witness :
    createFilterClause (FilterVal.vDict [("a", FilterVal.vInt 1)]) = Except.ok "(a = 1)" ∧
    createFilterClause (FilterVal.vDict [("a", FilterVal.vDict [("$in",
      FilterVal.vList [FilterVal.vInt 1, FilterVal.vInt 2])])]) = Except.ok "(a IN (1, 2))" ∧
    createFilterClause (FilterVal.vDict [("$and", FilterVal.vList
      [FilterVal.vDict [("a", FilterVal.vInt 1)], FilterVal.vDict [("b", FilterVal.vInt 2)]])]) =
      Except.ok "((a = 1) AND (b = 2))" := by
  refine ⟨?_, ?_, ?_⟩
  · have h := filter_compiler_wellformed_inputs.1 "a" (FilterVal.vInt 1)
      (by decide) (by decide) (by decide)
    exact h.trans (by decide)
  · have h := filter_compiler_wellformed_inputs.2.1 "a"
      [FilterVal.vInt 1, FilterVal.vInt 2] (by decide) (by decide) (by decide)
    exact h.trans (by decide)
  · have h := filter_compiler_wellformed_inputs.2.2
      (FilterVal.vDict [("a", FilterVal.vInt 1)]) (FilterVal.vDict [("b", FilterVal.vInt 2)])
      "(a = 1)" "(b = 2)" (by decide) (by decide)
    exact h.trans (by decide)

/-- Failure of the `$in`/`$nin` element check when a boolean is present:
the loop errors at or before the boolean. -/
theorem checkInNinList_err_of_bool : ∀ {l : List FilterVal},
    (∃ b, FilterVal.vBool b ∈ l) → isErr (checkInNinList l) = true := by
  intro l hb
  induction l with
  | nil => obtain ⟨b, hbm⟩ := hb; cases hbm
  | cons v vs ih =>
      obtain ⟨b, hbm⟩ := hb
      rcases List.mem_cons.mp hbm with hv | hmem
      · cases hv
        simp [checkInNinList, pyIsInstStrIntFloat, pyIsInstBool, isErr]
      · cases v with
        | vStr s =>
            simpa [checkInNinList, pyIsInstStrIntFloat, pyIsInstBool] using ih ⟨b, hmem⟩
        | vInt n =>
            simpa [checkInNinList, pyIsInstStrIntFloat, pyIsInstBool] using ih ⟨b, hmem⟩
        | vBool b2 => simp [checkInNinList, pyIsInstStrIntFloat, pyIsInstBool, isErr]
        | vNone => simp [checkInNinList, pyIsInstStrIntFloat, isErr]
        | vList l2 => simp [checkInNinList, pyIsInstStrIntFloat, isErr]
        | vDict d2 => simp [checkInNinList, pyIsInstStrIntFloat, isErr]

/-- C4: a `$in` or `$nin` filter whose value list contains a boolean always
raises, even though the boolean passes the numeric-type membership check
(`isinstance(val, (str, int, float))`) because `bool` is a subtype of
`int`; a dedicated second check rejects it rather than silently treating it
as a number. -/
theorem in_nin_rejects_boolean :
    (∀ (f op : String) (l : List FilterVal), (op = "$in" ∨ op = "$nin") →
      (∃ b, FilterVal.vBool b ∈ l) →
      isErr (handleFieldFilter f (FilterVal.vDict [(op, FilterVal.vList l)])) = true) ∧
    (∀ b, pyIsInstStrIntFloat (FilterVal.vBool b) = true) := by
  constructor
  · intro f op l hop hb
    obtain ⟨e, he⟩ : ∃ e, checkInNinList l = Except.error e := by
      have hCheck := checkInNinList_err_of_bool hb
      cases hcc : checkInNinList l with
      | error e => exact ⟨e, rfl⟩
      | ok u => rw [hcc] at hCheck; simp [isErr] at hCheck
    by_cases hd : startsWithDollar f = true
    · simp [handleFieldFilter, hd, isErr]
    · by_cases hid : pyIsIdentifier f = true
      · rcases hop with rfl | rfl
        · simp [handleFieldFilter, hd, hid, applyOperator, COMPARISONS_TO_NATIVE,
            List.lookup, SUPPORTED_OPERATORS, SPECIAL_CASED_OPERATORS, TEXT_OPERATORS,
            LOGICAL_OPERATORS, he, isErr]
        · simp [handleFieldFilter, hd, hid, applyOperator, COMPARISONS_TO_NATIVE,
            List.lookup, SUPPORTED_OPERATORS, SPECIAL_CASED_OPERATORS, TEXT_OPERATORS,
            LOGICAL_OPERATORS, he, isErr]
      · simp [handleFieldFilter, hd, hid, isErr]
  · intro b
    rfl

/-- Witness for C4: `$in` over a list containing `True` raises. -/
theorem in_nin_rejects_boolean_witness :
    isErr (handleFieldFilter "tag" (FilterVal.vDict [("$in",
      FilterVal.vList [FilterVal.vBool true])])) = true ∧
    pyIsInstStrIntFloat (FilterVal.vBool true) = true := by
  constructor
  · exact in_nin_rejects_boolean.1 "tag" "$in" [FilterVal.vBool true] (Or.inl rfl)
      ⟨true, List.mem_singleton.mpr rfl⟩
  · exact in_nin_rejects_boolean.2 true

/-- C5 (amended): the filter compiler raises in each of the four listed
situations — invalid or `$`-prefixed field name, unsupported field-level
operator, top-level single-key operator other than `$and`/`$or`/`$not`,
and an operator key inside a multi-key mapping — but these are not the
only raising inputs (see the counterexample: a boolean inside `$in` also
raises). -/
theorem filter_malformed_raises :
    (∀ (f : String) (v : FilterVal),
      startsWithDollar f = true ∨ pyIsIdentifier f = false →
      isErr (handleFieldFilter f v) = true) ∧
    (∀ (f op : String) (v : FilterVal), SUPPORTED_OPERATORS.contains op = false →
      isErr (handleFieldFilter f (FilterVal.vDict [(op, v)])) = true) ∧
    (∀ (key : String) (v : FilterVal), startsWithDollar key = true →
      ["$and", "$or", "$not"].contains (strToLower key) = false →
      isErr (createFilterClause (FilterVal.vDict [(key, v)])) = true) ∧
    (∀ (kv1 kv2 : String × FilterVal) (rest : List (String × FilterVal)),
      (∃ p ∈ kv1 :: kv2 :: rest, startsWithDollar p.1 = true) →
      isErr (createFilterClause (FilterVal.vDict (kv1 :: kv2 :: rest))) = true) := by
  refine ⟨fun f v h => ?_, fun f op v hop => ?_, fun key v hd hc => ?_,
    fun kv1 kv2 rest h => ?_⟩
  · rcases h with h | h
    · simp [handleFieldFilter, h, isErr]
    · by_cases hd : startsWithDollar f = true
      · simp [handleFieldFilter, hd, isErr]
      · simp [handleFieldFilter, hd, h, isErr]
  · by_cases hd : startsWithDollar f = true
    · simp [handleFieldFilter, hd, isErr]
    · by_cases hid : pyIsIdentifier f = true
      · have hmem : op ∉ SUPPORTED_OPERATORS := by simpa using hop
        simp [handleFieldFilter, hd, hid, hmem, isErr]
      · simp [handleFieldFilter, hd, hid, isErr]
  · show isErr (cfcF (fvSize (FilterVal.vDict [(key, v)]) + 1)
      (FilterVal.vDict [(key, v)])) = true
    generalize fvSize (FilterVal.vDict [(key, v)]) = G
    simp only [cfcF]
    simp at hc
    simp [hd, hc, isErr]
  · show isErr (cfcF (fvSize (FilterVal.vDict (kv1 :: kv2 :: rest)) + 1)
      (FilterVal.vDict (kv1 :: kv2 :: rest))) = true
    generalize fvSize (FilterVal.vDict (kv1 :: kv2 :: rest)) = G
    have hsome : ((kv1 :: kv2 :: rest).find? (fun kv => startsWithDollar kv.1)).isSome := by
      rw [List.find?_isSome]
      obtain ⟨p, hp, hps⟩ := h
      exact ⟨p, hp, hps⟩
    obtain ⟨kv, hkv⟩ := Option.isSome_iff_exists.mp hsome
    simp only [cfcF]
    simp [hkv, isErr]

/-- Witness for C5: one raising input per listed malformation. -/
theorem filter_malformed_raises_witness :
    isErr (handleFieldFilter "a b" (FilterVal.vInt 1)) = true ∧
    isErr (handleFieldFilter "a" (FilterVal.vDict [("$regex", FilterVal.vInt 1)])) = true ∧
    isErr (createFilterClause (FilterVal.vDict [("$gt", FilterVal.vInt 5)])) = true ∧
    isErr (createFilterClause
      (FilterVal.vDict [("a", FilterVal.vInt 1), ("$or", FilterVal.vInt 2)])) = true := by
  refine ⟨?_, ?_, ?_, ?_⟩
  · exact filter_malformed_raises.1 "a b" (FilterVal.vInt 1) (Or.inr (by decide))
  · exact filter_malformed_raises.2.1 "a" "$regex" (FilterVal.vInt 1) (by decide)
  · exact filter_malformed_raises.2.2.1 "$gt" (FilterVal.vInt 5) (by decide) (by decide)
  · exact filter_malformed_raises.2.2.2 ("a", FilterVal.vInt 1) ("$or", FilterVal.vInt 2) []
      ⟨("$or", FilterVal.vInt 2), List.mem_cons_of_mem _ (List.mem_cons_self _ _), by decide⟩

/-- Counterexample for C5 as frozen: the claim's "exactly when" direction
fails — `{"a": {"$in": [True]}}` raises although its field name is a valid
identifier not starting with `$`, its only operator `$in` is supported, the
top-level single key is a field (not an operator), and the mapping is not
multi-key. -/
theorem filter_malformed_raises_counterexample :
    isErr (createFilterClause (FilterVal.vDict [("a", FilterVal.vDict [("$in",
      FilterVal.vList [FilterVal.vBool true])])])) = true ∧
    pyIsIdentifier "a" = true ∧
    startsWithDollar "a" = false ∧
    SUPPORTED_OPERATORS.contains "$in" = true := by
  decide

/-- C10: compiling the empty filter mapping returns the empty predicate
string rather than raising, and a similarity search called with the empty
dict filter builds exactly the same SQL statement as a search with no
filter at all (the empty dict is falsy, so no WHERE clause is rendered). -/
theorem empty_filter_same_query :
    (createFilterClause (FilterVal.vDict []) = Except.ok "") ∧
    (∀ (store : VectorStore) (qEmbStr : String) (k : Option Nat),
      queryCollectionStmt store qEmbStr k (some (PyFilterArg.dictArg [])) =
        queryCollectionStmt store qEmbStr k none) := by
  exact ⟨rfl, fun store qEmbStr k => rfl⟩

/-- C2: the MMR candidate fetch forwards the raw `fetch_k` argument as the
query row cap, whose omitted-case default is the store-level `k`, not the
store-level `fetch_k` — on a store with `k = 4` and `fetch_k = 20`, an MMR
search with `fetch_k` omitted fetches only 4 candidates (the dead
defaulting line runs after the fetch); an explicit `fetch_k` is used as
passed. -/
theorem mmr_fetch_limit_default_is_k :
    mmrCandidateLimit limStore none = limStore.k ∧
    limStore.k = 4 ∧ limStore.fetchK = 20 ∧
    mmrCandidateLimit limStore none ≠ limStore.fetchK ∧
    mmrCandidateLimit limStore (some 7) = 7 := by
  exact ⟨rfl, rfl, rfl, by decide, rfl⟩

/-- Order preservation of the positional selection. -/
theorem fetchOrderSelect_sublist {α : Type} (l : List α) (sel : List Nat) :
    List.Sublist (fetchOrderSelect l sel) l := by
  have h1 : List.Sublist (l.enum.filter (fun p => sel.contains p.1)) l.enum :=
    List.filter_sublist _
  have h2 := h1.map Prod.snd
  simpa [fetchOrderSelect, List.enum_map_snd] using h2

/-- C1 (amended): the MMR search result is the greedily selected subset of
the decoded `(Document, distance)` pairs — each pair taken unchanged from
the original fetch — kept in the original fetch (similarity) order by
index membership, not reordered into greedy selection order. -/
theorem mmr_result_pairing_fetch_order :
    (∀ (store : VectorStore) (emb : List ℚ) (rows : List SearchRow)
      (k fk : Option Nat) (lam : Option ℚ),
      amaxMarginalRelevanceSearchWithScoreByVector store emb rows k fk lam =
        fetchOrderSelect (docsWithScores store rows)
          (maximalMarginalRelevance emb (rows.map (fun r => r.embeddingVal))
            (pyDefaultQ lam store.lambdaMult) (pyDefaultNat k store.k))) ∧
    (∀ (store : VectorStore) (emb : List ℚ) (rows : List SearchRow)
      (k fk : Option Nat) (lam : Option ℚ),
      List.Sublist (amaxMarginalRelevanceSearchWithScoreByVector store emb rows k fk lam)
        (docsWithScores store rows)) := by
  constructor
  · intro store emb rows k fk lam
    rfl
  · intro store emb rows k fk lam
    exact fetchOrderSelect_sublist (docsWithScores store rows)
      (maximalMarginalRelevance emb (rows.map (fun r => r.embeddingVal))
        (pyDefaultQ lam store.lambdaMult) (pyDefaultNat k store.k))

set_option maxHeartbeats 2000000

/-- Counterexample for C1 as frozen: on three candidates with the third
orthogonal to the query and the store-level `lambda_mult` at 0, the greedy
selection order is `[0, 2, 1]`, yet the returned documents come out as
`"0", "1", "2"` — the original fetch order — not in the selection order
`"0", "2", "1"` the claim asserts. -/
theorem mmr_selection_order_counterexample :
    maximalMarginalRelevance [1, 0] [[1, 0], [1, 0], [0, 1]] 0 3 = [0, 2, 1] ∧
    (amaxMarginalRelevanceSearchWithScoreByVector mmrStore [1, 0]
      [mmrRow0, mmrRow1, mmrRow2] (some 3) none none).map (fun p => p.1.docId) =
      ["0", "1", "2"] ∧
    (["0", "1", "2"] : List String) ≠ ["0", "2", "1"] := by
  have hsel : maximalMarginalRelevance [1, 0] [[1, 0], [1, 0], [0, 1]] 0 3 = [0, 2, 1] := by
    have h1 : cosineSimilarity [1, 0] [1, 0] = 1 := by
      norm_num [cosineSimilarity, dotQ, sqrtQ]
    have h2 : cosineSimilarity [1, 0] [0, 1] = 0 := by
      norm_num [cosineSimilarity, dotQ, sqrtQ]
    have h3 : cosineSimilarity [0, 1] [1, 0] = 0 := by
      norm_num [cosineSimilarity, dotQ, sqrtQ]
    have h4 : cosineSimilarity [0, 1] [0, 1] = 1 := by
      norm_num [cosineSimilarity, dotQ, sqrtQ]
    have g0 : ([[1, 0], [1, 0], [0, 1]] : List (List ℚ))[0]?.getD [] = [1, 0] := rfl
    have g1 : ([[1, 0], [1, 0], [0, 1]] : List (List ℚ))[1]?.getD [] = [1, 0] := rfl
    have g2 : ([[1, 0], [1, 0], [0, 1]] : List (List ℚ))[2]?.getD [] = [0, 1] := rfl
    have e1 : ([[1, 0], [1, 0], [0, 1]] : List (List ℚ))[1] = [1, 0] := rfl
    have e2 : ([[1, 0], [1, 0], [0, 1]] : List (List ℚ))[2] = [0, 1] := rfl
    simp only [maximalMarginalRelevance]
    norm_num [h1, h2, h3, h4, g0, g1, g2, e1, e2, mmrLoop, mmrPick, mmrPickAux, listMaxD,
      argmaxFirst, argmaxAux, List.enum, List.enumFrom, List.filter, List.getD,
      sup_eq_max, max_def]
  refine ⟨hsel, ?_, by decide⟩
  show (fetchOrderSelect (docsWithScores mmrStore [mmrRow0, mmrRow1, mmrRow2])
      (maximalMarginalRelevance [1, 0] [[1, 0], [1, 0], [0, 1]] 0 3)).map
      (fun p => p.1.docId) = ["0", "1", "2"]
  rw [hsel]
  decide
